import Mathlib

/-!
Verification of the specview repository's natural-language specification
against a shallow embedding of its Python source.

The embedding covers:
* the auto-naming scheme of plotted spectra (Python `f"SPECTRUM_{n:02d}"`),
* the Qt spectrum-cache pipeline (`SpecViewWindow` + `SpectralDisplayWidget` +
  `SpectrumEditWindow`): add / rename / remove / clear slots,
* the matplotlib spectral canvas (`SpectralCanvas`),
* `square_image` from `utils.py`,
* `pixel_select` from `image_display_widget.py` and the pick handler of
  `spectrum_picker_classes.py`,
* the area-spectrum statistics (`np.mean` / `np.std` with `ddof=1`),
* the `ThreeBandRGB` band compositor from `rgb_image.py`.

Rendering artifacts (pyqtgraph `PlotDataItem`, `ErrorBarItem`,
`QGraphicsPolygonItem`, matplotlib `Line2D`) are identified by allocation
ids (`Nat`); canvases are modelled by the lists of item ids they hold.
Floating point numbers are modelled by `ℚ` (with `ℝ` only where a square
root appears); `NaN` cells of a padded image are modelled by `none`.
-/

namespace SpecView

/-! ### Decimal formatting of auto-generated spectrum names

Mirrors Python `f"SPECTRUM_{n:02d}"`: decimal digits, left-padded with `0`
to width two. -/

/-- The character of a single decimal digit (`'0'`–`'9'` for `d < 10`). -/
def digitChar (d : Nat) : Char := Char.ofNat (48 + d)

/-- Little-endian base-10 digit list, computed with explicit fuel so that it
reduces in the kernel. -/
def decDigitsAux : Nat → Nat → List Nat
  | 0, _ => []
  | _ + 1, 0 => []
  | fuel + 1, n + 1 => ((n + 1) % 10) :: decDigitsAux fuel ((n + 1) / 10)

/-- Little-endian base-10 digits of `n` (agrees with `Nat.digits 10 n`). -/
def decDigits (n : Nat) : List Nat := decDigitsAux n n

theorem decDigitsAux_eq (fuel : Nat) : ∀ n ≤ fuel,
    decDigitsAux fuel n = Nat.digits 10 n := by
  induction fuel with
  | zero =>
    intro n hn
    interval_cases n
    simp [decDigitsAux]
  | succ f ih =>
    intro n hn
    cases n with
    | zero => simp [decDigitsAux]
    | succ m =>
      have hdiv : (m + 1) / 10 ≤ f := by
        have := Nat.div_lt_self (Nat.succ_pos m) (by norm_num : 1 < 10)
        omega
      rw [show decDigitsAux (f + 1) (m + 1) =
        ((m + 1) % 10) :: decDigitsAux f ((m + 1) / 10) from rfl]
      rw [ih _ hdiv, Nat.digits_def' (by norm_num : 1 < 10) (Nat.succ_pos m)]

theorem decDigits_eq (n : Nat) : decDigits n = Nat.digits 10 n :=
  decDigitsAux_eq n n le_rfl

/-- Decimal rendering of a natural number (mirrors Python `repr` /
`str` of a nonnegative `int`). -/
def natToDec (n : Nat) : String :=
  if n = 0 then "0" else ⟨((decDigits n).map digitChar).reverse⟩

theorem natToDec_eq (n : Nat) : natToDec n =
    if n = 0 then "0" else ⟨((Nat.digits 10 n).map digitChar).reverse⟩ := by
  unfold natToDec
  rw [decDigits_eq]

/-- Python `f"{n:02d}"`: pad with a leading zero below ten. -/
def pad2 (n : Nat) : String :=
  if n < 10 then "0" ++ natToDec n else natToDec n

/-- The auto-generated name of the `i`-th added spectrum
(`f"SPECTRUM_{i:02d}"` in `spectral_display_widget.py` and
`spectral_display_canvas.py`). -/
def autoName (i : Nat) : String := "SPECTRUM_" ++ pad2 i

theorem digitChar_inj_lt : ∀ d₁ < 10, ∀ d₂ < 10,
    digitChar d₁ = digitChar d₂ → d₁ = d₂ := by decide

theorem digitChar_ne_zero_char : ∀ d < 10, d ≠ 0 → digitChar d ≠ '0' := by
  decide

theorem map_digitChar_inj : ∀ l₁ l₂ : List Nat, (∀ d ∈ l₁, d < 10) →
    (∀ d ∈ l₂, d < 10) → l₁.map digitChar = l₂.map digitChar → l₁ = l₂ := by
  intro l₁
  induction l₁ with
  | nil =>
    intro l₂ _ _ h
    cases l₂ with
    | nil => rfl
    | cons b t => simp at h
  | cons a t ih =>
    intro l₂ h₁ h₂ h
    cases l₂ with
    | nil => simp at h
    | cons b t' =>
      simp only [List.map_cons, List.cons.injEq] at h
      have ha : a = b := by
        refine digitChar_inj_lt a (h₁ a (by simp)) b (h₂ b (by simp)) h.1
      have ht : t = t' := by
        refine ih t' (fun d hd => h₁ d (by simp [hd]))
          (fun d hd => h₂ d (by simp [hd])) h.2
      rw [ha, ht]

theorem natToDec_inj : Function.Injective natToDec := by
  intro n m h
  rw [natToDec_eq, natToDec_eq] at h
  by_cases hn : n = 0 <;> by_cases hm : m = 0
  · rw [hn, hm]
  · exfalso
    simp only [hn, if_pos rfl, if_neg hm] at h
    have hdata : ['0'] = ((Nat.digits 10 m).map digitChar).reverse :=
      congrArg String.data h
    have hrev : (Nat.digits 10 m).map digitChar = ['0'] := by
      have := congrArg List.reverse hdata
      simpa using this.symm
    have hdig : Nat.digits 10 m = [0] := by
      refine map_digitChar_inj _ [0]
        (fun d hd => Nat.digits_lt_base (by norm_num) hd) (by simp) ?_
      simpa using hrev
    have := congrArg (Nat.ofDigits 10) hdig
    simp [Nat.ofDigits_digits] at this
    exact hm this
  · exfalso
    simp only [hm, if_pos rfl, if_neg hn] at h
    have hdata : ((Nat.digits 10 n).map digitChar).reverse = ['0'] :=
      congrArg String.data h
    have hrev : (Nat.digits 10 n).map digitChar = ['0'] := by
      have := congrArg List.reverse hdata
      simpa using this
    have hdig : Nat.digits 10 n = [0] := by
      refine map_digitChar_inj _ [0]
        (fun d hd => Nat.digits_lt_base (by norm_num) hd) (by simp) ?_
      simpa using hrev
    have := congrArg (Nat.ofDigits 10) hdig
    simp [Nat.ofDigits_digits] at this
    exact hn this
  · simp only [if_neg hn, if_neg hm] at h
    have hdata := congrArg String.data h
    simp only [String.data] at hdata
    have hrev : (Nat.digits 10 n).map digitChar =
        (Nat.digits 10 m).map digitChar := by
      have := congrArg List.reverse hdata
      simpa using this
    have hdig : Nat.digits 10 n = Nat.digits 10 m :=
      map_digitChar_inj _ _
        (fun d hd => Nat.digits_lt_base (by norm_num) hd)
        (fun d hd => Nat.digits_lt_base (by norm_num) hd) hrev
    have := congrArg (Nat.ofDigits 10) hdig
    simpa [Nat.ofDigits_digits] using this

theorem natToDec_head_ne_zero (m : Nat) (hm : 10 ≤ m) :
    (natToDec m).data.head? ≠ some '0' := by
  have hm0 : m ≠ 0 := by omega
  rw [natToDec_eq, if_neg hm0]
  have hne : Nat.digits 10 m ≠ [] := Nat.digits_ne_nil_iff_ne_zero.mpr hm0
  have hmapne : (Nat.digits 10 m).map digitChar ≠ [] := by
    simpa using hne
  rw [show (String.mk (((Nat.digits 10 m).map digitChar).reverse)).data =
      ((Nat.digits 10 m).map digitChar).reverse from rfl]
  rw [List.head?_reverse]
  rw [List.getLast?_eq_getLast _ hmapne, List.getLast_map]
  have hlast_ne := Nat.getLast_digit_ne_zero 10 hm0
  have hlast_lt : (Nat.digits 10 m).getLast hne < 10 :=
    Nat.digits_lt_base (by norm_num) (List.getLast_mem hne)
  intro hcontra
  exact digitChar_ne_zero_char _ hlast_lt hlast_ne (by
    injection hcontra)

theorem pad2_inj : Function.Injective pad2 := by
  intro n m h
  unfold pad2 at h
  by_cases hn : n < 10 <;> by_cases hm : m < 10
  · rw [if_pos hn, if_pos hm] at h
    have hdata := congrArg String.data h
    simp only [String.data_append] at hdata
    have : (natToDec n).data = (natToDec m).data :=
      List.append_cancel_left hdata
    exact natToDec_inj (by cases hd₁ : natToDec n; cases hd₂ : natToDec m
                           simp_all)
  · exfalso
    rw [if_pos hn, if_neg hm] at h
    have hdata := congrArg String.data h
    simp only [String.data_append] at hdata
    have hhead := congrArg List.head? hdata
    have h0 : (("0" : String).data ++ (natToDec n).data).head? = some '0' := by
      rfl
    rw [h0] at hhead
    exact natToDec_head_ne_zero m (by omega) hhead.symm
  · exfalso
    rw [if_neg hn, if_pos hm] at h
    have hdata := congrArg String.data h
    simp only [String.data_append] at hdata
    have hhead := congrArg List.head? hdata
    have h0 : (("0" : String).data ++ (natToDec m).data).head? = some '0' := by
      rfl
    rw [h0] at hhead
    exact natToDec_head_ne_zero n (by omega) hhead
  · rw [if_neg hn, if_neg hm] at h
    exact natToDec_inj h

theorem autoName_inj : Function.Injective autoName := by
  intro n m h
  unfold autoName at h
  have hdata := congrArg String.data h
  simp only [String.data_append] at hdata
  have : (pad2 n).data = (pad2 m).data := List.append_cancel_left hdata
  refine pad2_inj ?_
  cases hd₁ : pad2 n; cases hd₂ : pad2 m
  simp_all

/-! ### Python `dict` on string keys, as an insertion-ordered association list

`dictInsert` mirrors `d[k] = v` (overwrite in place, else append),
`dictErase` mirrors `del d[k]` / `d.pop(k)` (remove the entry), and
`dictLookup` mirrors `d[k]` / `d.get(k)`. -/

def dictLookup {V : Type} (l : List (String × V)) (k : String) : Option V :=
  match l with
  | [] => none
  | (k', v) :: t => if k' = k then some v else dictLookup t k

def dictInsert {V : Type} (l : List (String × V)) (k : String) (v : V) :
    List (String × V) :=
  match l with
  | [] => [(k, v)]
  | (k', v') :: t =>
      if k' = k then (k, v) :: t else (k', v') :: dictInsert t k v

def dictErase {V : Type} (l : List (String × V)) (k : String) :
    List (String × V) :=
  match l with
  | [] => []
  | (k', v') :: t => if k' = k then t else (k', v') :: dictErase t k

/-- The key list of a dict. -/
def dictKeys {V : Type} (l : List (String × V)) : List String := l.map (·.1)

theorem dictLookup_cons {V : Type} (k₀ k : String) (v₀ : V)
    (t : List (String × V)) :
    dictLookup ((k₀, v₀) :: t) k =
      if k₀ = k then some v₀ else dictLookup t k := rfl

theorem dictInsert_cons {V : Type} (k₀ k : String) (v₀ v : V)
    (t : List (String × V)) :
    dictInsert ((k₀, v₀) :: t) k v =
      if k₀ = k then (k, v) :: t else (k₀, v₀) :: dictInsert t k v := rfl

theorem dictErase_cons {V : Type} (k₀ k : String) (v₀ : V)
    (t : List (String × V)) :
    dictErase ((k₀, v₀) :: t) k =
      if k₀ = k then t else (k₀, v₀) :: dictErase t k := rfl

theorem dictKeys_cons {V : Type} (k₀ : String) (v₀ : V)
    (t : List (String × V)) :
    dictKeys ((k₀, v₀) :: t) = k₀ :: dictKeys t := rfl

theorem dictInsert_of_not_mem {V : Type} (l : List (String × V)) (k : String)
    (v : V) (h : k ∉ dictKeys l) : dictInsert l k v = l ++ [(k, v)] := by
  induction l with
  | nil => rfl
  | cons hd t ih =>
    obtain ⟨k', v'⟩ := hd
    rw [dictKeys_cons, List.mem_cons] at h
    push_neg at h
    rw [dictInsert_cons, if_neg (fun he => h.1 he.symm), ih h.2,
      List.cons_append]

theorem length_dictInsert_of_mem {V : Type} (l : List (String × V))
    (k : String) (v : V) (h : k ∈ dictKeys l) :
    (dictInsert l k v).length = l.length := by
  induction l with
  | nil => simp [dictKeys] at h
  | cons hd t ih =>
    obtain ⟨k', v'⟩ := hd
    by_cases hk : k' = k
    · rw [dictInsert_cons, if_pos hk]
      simp
    · rw [dictKeys_cons, List.mem_cons] at h
      rcases h with h | h
      · exact absurd h.symm hk
      · rw [dictInsert_cons, if_neg hk]
        simp [ih h]

theorem length_dictErase_of_mem {V : Type} (l : List (String × V))
    (k : String) (h : k ∈ dictKeys l) :
    (dictErase l k).length + 1 = l.length := by
  induction l with
  | nil => simp [dictKeys] at h
  | cons hd t ih =>
    obtain ⟨k', v'⟩ := hd
    by_cases hk : k' = k
    · rw [dictErase_cons, if_pos hk]
      simp
    · rw [dictKeys_cons, List.mem_cons] at h
      rcases h with h | h
      · exact absurd h.symm hk
      · rw [dictErase_cons, if_neg hk]
        simp [ih h]

theorem mem_dictKeys_dictErase_of_ne {V : Type} (l : List (String × V))
    (k k' : String) (hne : k' ≠ k) (h : k' ∈ dictKeys l) :
    k' ∈ dictKeys (dictErase l k) := by
  induction l with
  | nil => simp [dictKeys] at h
  | cons hd t ih =>
    obtain ⟨k₀, v₀⟩ := hd
    rw [dictKeys_cons, List.mem_cons] at h
    by_cases hk : k₀ = k
    · rw [dictErase_cons, if_pos hk]
      rcases h with h | h
      · exact absurd (h.trans hk) hne
      · exact h
    · rw [dictErase_cons, if_neg hk, dictKeys_cons, List.mem_cons]
      rcases h with h | h
      · exact Or.inl h
      · exact Or.inr (ih h)

theorem dictLookup_dictErase_of_ne {V : Type} (l : List (String × V))
    (k k' : String) (hne : k' ≠ k) :
    dictLookup (dictErase l k) k' = dictLookup l k' := by
  induction l with
  | nil => rfl
  | cons hd t ih =>
    obtain ⟨k₀, v₀⟩ := hd
    by_cases hk : k₀ = k
    · rw [dictErase_cons, if_pos hk, dictLookup_cons,
        if_neg (fun he => hne ((he.symm.trans hk)))]
    · rw [dictErase_cons, if_neg hk, dictLookup_cons, dictLookup_cons, ih]

theorem dictLookup_dictInsert_self {V : Type} (l : List (String × V))
    (k : String) (v : V) : dictLookup (dictInsert l k v) k = some v := by
  induction l with
  | nil => simp [dictInsert, dictLookup]
  | cons hd t ih =>
    obtain ⟨k₀, v₀⟩ := hd
    by_cases hk : k₀ = k
    · rw [dictInsert_cons, if_pos hk, dictLookup_cons, if_pos rfl]
    · rw [dictInsert_cons, if_neg hk, dictLookup_cons, if_neg hk, ih]

theorem dictLookup_dictInsert_of_ne {V : Type} (l : List (String × V))
    (k k' : String) (v : V) (hne : k' ≠ k) :
    dictLookup (dictInsert l k v) k' = dictLookup l k' := by
  induction l with
  | nil =>
    show (if k = k' then some v else none) = none
    rw [if_neg (fun he => hne he.symm)]
  | cons hd t ih =>
    obtain ⟨k₀, v₀⟩ := hd
    by_cases hk : k₀ = k
    · rw [dictInsert_cons, if_pos hk, dictLookup_cons, dictLookup_cons,
        if_neg (fun he => hne he.symm), if_neg (fun he => hne (he.symm.trans hk))]
    · rw [dictInsert_cons, if_neg hk, dictLookup_cons, dictLookup_cons, ih]

/-- Looking up a present key and then erasing it: as multisets, the mapped
values of the dict are the looked-up value plus the mapped values of the
erased dict. -/
theorem map_multiset_dictErase {V W : Type} [DecidableEq W]
    (l : List (String × V)) (k : String) (v : V) (f : String × V → W)
    (h : dictLookup l k = some v) :
    (↑(l.map f) : Multiset W) =
      f (k, v) ::ₘ ↑((dictErase l k).map f) := by
  induction l with
  | nil => simp [dictLookup] at h
  | cons hd t ih =>
    obtain ⟨k₀, v₀⟩ := hd
    by_cases hk : k₀ = k
    · rw [dictLookup_cons, if_pos hk] at h
      injection h with h
      rw [dictErase_cons, if_pos hk, List.map_cons]
      subst hk
      subst h
      rfl
    · rw [dictLookup_cons, if_neg hk] at h
      rw [dictErase_cons, if_neg hk, List.map_cons, List.map_cons]
      rw [show ((f (k₀, v₀) :: List.map f t : List W) : Multiset W) =
        f (k₀, v₀) ::ₘ ↑(List.map f t) from rfl]
      rw [ih h]
      rw [show ((f (k₀, v₀) :: List.map f (dictErase t k) : List W) :
        Multiset W) = f (k₀, v₀) ::ₘ ↑(List.map f (dictErase t k)) from rfl]
      exact Multiset.cons_swap _ _ _

/-! ### The Qt spectrum-cache pipeline

State of one `SpecViewWindow` (`spectral_viewing_window.py`) together with
its `SpectralDisplayWidget` (`spectral_display_widget.py`) and
`BaseWindow.state.spectrum_cache` (`base_window.py`).  Artifact objects
(`PlotDataItem`, `ErrorBarItem`, `QGraphicsPolygonItem`) are identified by
ids allocated from `nextId`; `plotItems` / `errItems` are the items
currently added to `spec_plot`, `viewItems` the polygon items on the image
view. -/

structure QtState where
  /-- `SpectralDisplayWidget._count`. -/
  count : Nat
  /-- Allocator for artifact ids (object identity of Qt items). -/
  nextId : Nat
  /-- `PlotDataItem`s currently added to `spec_plot`. -/
  plotItems : List Nat
  /-- `ErrorBarItem`s currently added to `spec_plot`. -/
  errItems : List Nat
  /-- Polygon items currently added to the image view. -/
  viewItems : List Nat
  /-- `BaseWindow.state.spectrum_cache : dict[str, (PlotDataItem, ErrorBarItem)]`. -/
  spectrum_cache : List (String × (Nat × Nat))
  /-- `SpecViewWindow.polygon_cache : dict[str, QGraphicsPolygonItem | None]`. -/
  polygon_cache : List (String × Option Nat)
  deriving Repr, DecidableEq

/-- `MasterGUIState.initial()` plus a fresh widget: empty caches, `_count = 0`. -/
def initState : QtState :=
  { count := 0, nextId := 0, plotItems := [], errItems := [], viewItems := [],
    spectrum_cache := [], polygon_cache := [] }

/-- `pixel_picked` flow: `SpectralDisplayWidget.add_spectrum` (increments
`_count`, creates the plot item named `SPECTRUM_{count:02d}` and an invisible
error-bar item, adds only the plot item to `spec_plot`, emits `data_added`
which runs `cache_spectrum`), then `intercept_pixel_coord` stores `None` in
`polygon_cache`. -/
def add_spectrum (s : QtState) : QtState :=
  let count := s.count + 1
  let name := autoName count
  let plotId := s.nextId
  let errId := s.nextId + 1
  { count := count
    nextId := s.nextId + 2
    plotItems := s.plotItems ++ [plotId]
    errItems := s.errItems
    viewItems := s.viewItems
    spectrum_cache := dictInsert s.spectrum_cache name (plotId, errId)
    polygon_cache := dictInsert s.polygon_cache name none }

/-- `lasso_finished` flow: `SpectralDisplayWidget.add_group` (increments
`_count`, creates plot and error-bar items, adds both to `spec_plot`, emits
`data_added` → `cache_spectrum`), then `intercept_roi` creates a polygon
item, stores it in `polygon_cache` and adds it to the image view. -/
def add_group (s : QtState) : QtState :=
  let count := s.count + 1
  let name := autoName count
  let plotId := s.nextId
  let errId := s.nextId + 1
  let polyId := s.nextId + 2
  { count := count
    nextId := s.nextId + 3
    plotItems := s.plotItems ++ [plotId]
    errItems := s.errItems ++ [errId]
    viewItems := s.viewItems ++ [polyId]
    spectrum_cache := dictInsert s.spectrum_cache name (plotId, errId)
    polygon_cache := dictInsert s.polygon_cache name (some polyId) }

/-- `spectrum_deleted` flow for the entry named `name`:
`SpectralDisplayWidget.edit_spectrum.delete_spectrum` removes the plot and
error-bar items from `spec_plot` and emits `data_removed(plot.name())`;
`SpecViewWindow.remove_spectrum` removes the polygon item (if any) from the
image view and deletes the `polygon_cache` and `spectrum_cache` entries
(`KeyError`, modelled as `none`, if the name is absent). -/
def remove_spectrum (s : QtState) (name : String) : Option QtState :=
  match dictLookup s.spectrum_cache name, dictLookup s.polygon_cache name with
  | some (p, e), some pv =>
      some { s with
        plotItems := s.plotItems.erase p
        errItems := s.errItems.erase e
        viewItems := match pv with
          | some poly => s.viewItems.erase poly
          | none => s.viewItems
        polygon_cache := dictErase s.polygon_cache name
        spectrum_cache := dictErase s.spectrum_cache name }
  | _, _ => none

/-- `name_changed` flow: the edit window writes the new name into the plot
item and emits `(old_name, new_name)`; `SpecViewWindow.update_cache` runs
`del spectrum_cache[old]`, `spectrum_cache[new] = (plot, err)`,
`polygon_cache[new] = polygon_cache.pop(old)`.  `p`/`e` are the
closure-captured plot and error-bar items of the edited spectrum;
`KeyError` (old name absent) is modelled as `none`.  No duplicate check is
performed anywhere on this path. -/
def update_cache (s : QtState) (p e : Nat) (old new : String) :
    Option QtState :=
  match dictLookup s.spectrum_cache old, dictLookup s.polygon_cache old with
  | some _, some pv =>
      some { s with
        spectrum_cache := dictInsert (dictErase s.spectrum_cache old) new (p, e)
        polygon_cache := dictInsert (dictErase s.polygon_cache old) new pv }
  | _, _ => none

/-- `SpecViewWindow.empty_cache`: removes every cached plot, error-bar and
polygon item from the canvases and emits `plot_reset`, whose only handler
(`SpectralDisplayWidget.handle_reset`) sets `_count = 0`.  The
`spectrum_cache` and `polygon_cache` dicts themselves are not touched. -/
def empty_cache (s : QtState) : QtState :=
  let pe := s.spectrum_cache.foldl
    (fun (pe : List Nat × List Nat) en => (pe.1.erase en.2.1, pe.2.erase en.2.2))
    (s.plotItems, s.errItems)
  let vi := s.polygon_cache.foldl
    (fun vi en => match en.2 with
      | some poly => vi.erase poly
      | none => vi) s.viewItems
  { s with count := 0, plotItems := pe.1, errItems := pe.2, viewItems := vi }

/-- One user-driven cache operation (C2's `add` and `remove`; `rename` and
`clear` are `update_cache` and `empty_cache` above). -/
inductive CacheOp where
  | pixelPick : CacheOp
  | lassoPick : CacheOp
  | deleteSpec : String → CacheOp
  deriving Repr, DecidableEq

def applyOp (s : QtState) : CacheOp → Option QtState
  | CacheOp.pixelPick => some (add_spectrum s)
  | CacheOp.lassoPick => some (add_group s)
  | CacheOp.deleteSpec n => remove_spectrum s n

def runOps : QtState → List CacheOp → Option QtState
  | s, [] => some s
  | s, op :: t =>
      match applyOp s op with
      | some s' => runOps s' t
      | none => none

/-- Invariant linking the live plot lines to the cache: the multiset of
`PlotDataItem` ids on `spec_plot` equals the multiset of plot ids stored in
`spectrum_cache`, and every cache key is an auto-generated name with index
at most `_count`. -/
def CacheInv (s : QtState) : Prop :=
  (↑s.plotItems : Multiset Nat) =
    ↑(s.spectrum_cache.map (fun en => en.2.1)) ∧
  ∀ k ∈ dictKeys s.spectrum_cache, ∃ i, 1 ≤ i ∧ i ≤ s.count ∧ k = autoName i

theorem cacheInv_initState : CacheInv initState := by
  constructor
  · rfl
  · intro k hk
    simp [initState, dictKeys] at hk

theorem autoName_fresh (s : QtState) (hInv : CacheInv s) :
    autoName (s.count + 1) ∉ dictKeys s.spectrum_cache := by
  intro hmem
  obtain ⟨i, hi1, hile, hname⟩ := hInv.2 _ hmem
  have : i = s.count + 1 := autoName_inj hname.symm
  omega

theorem cacheInv_add_spectrum (s : QtState) (hInv : CacheInv s) :
    CacheInv (add_spectrum s) := by
  have hfresh := autoName_fresh s hInv
  constructor
  · show (↑(s.plotItems ++ [s.nextId]) : Multiset Nat) = _
    rw [show (add_spectrum s).spectrum_cache =
      dictInsert s.spectrum_cache (autoName (s.count + 1))
        (s.nextId, s.nextId + 1) from rfl]
    rw [dictInsert_of_not_mem _ _ _ hfresh, List.map_append]
    rw [← Multiset.coe_add, ← Multiset.coe_add, hInv.1]
    rfl
  · intro k hk
    rw [show (add_spectrum s).spectrum_cache =
      dictInsert s.spectrum_cache (autoName (s.count + 1))
        (s.nextId, s.nextId + 1) from rfl,
      dictInsert_of_not_mem _ _ _ hfresh] at hk
    rw [show dictKeys (s.spectrum_cache ++
      [(autoName (s.count + 1), (s.nextId, s.nextId + 1))]) =
      dictKeys s.spectrum_cache ++ [autoName (s.count + 1)] from by
        simp [dictKeys]] at hk
    rw [List.mem_append] at hk
    rcases hk with hk | hk
    · obtain ⟨i, hi1, hile, hname⟩ := hInv.2 _ hk
      exact ⟨i, hi1, by simp [add_spectrum]; omega, hname⟩
    · rw [List.mem_singleton] at hk
      exact ⟨s.count + 1, by omega, by simp [add_spectrum], hk⟩

theorem cacheInv_add_group (s : QtState) (hInv : CacheInv s) :
    CacheInv (add_group s) := by
  have hfresh := autoName_fresh s hInv
  constructor
  · show (↑(s.plotItems ++ [s.nextId]) : Multiset Nat) = _
    rw [show (add_group s).spectrum_cache =
      dictInsert s.spectrum_cache (autoName (s.count + 1))
        (s.nextId, s.nextId + 1) from rfl]
    rw [dictInsert_of_not_mem _ _ _ hfresh, List.map_append]
    rw [← Multiset.coe_add, ← Multiset.coe_add, hInv.1]
    rfl
  · intro k hk
    rw [show (add_group s).spectrum_cache =
      dictInsert s.spectrum_cache (autoName (s.count + 1))
        (s.nextId, s.nextId + 1) from rfl,
      dictInsert_of_not_mem _ _ _ hfresh] at hk
    rw [show dictKeys (s.spectrum_cache ++
      [(autoName (s.count + 1), (s.nextId, s.nextId + 1))]) =
      dictKeys s.spectrum_cache ++ [autoName (s.count + 1)] from by
        simp [dictKeys]] at hk
    rw [List.mem_append] at hk
    rcases hk with hk | hk
    · obtain ⟨i, hi1, hile, hname⟩ := hInv.2 _ hk
      exact ⟨i, hi1, by simp [add_group]; omega, hname⟩
    · rw [List.mem_singleton] at hk
      exact ⟨s.count + 1, by omega, by simp [add_group], hk⟩

theorem dictKeys_dictErase_subset {V : Type} (l : List (String × V))
    (k k' : String) (h : k' ∈ dictKeys (dictErase l k)) : k' ∈ dictKeys l := by
  induction l with
  | nil => simp [dictErase, dictKeys] at h
  | cons hd t ih =>
    obtain ⟨k₀, v₀⟩ := hd
    by_cases hk : k₀ = k
    · rw [dictErase_cons, if_pos hk] at h
      rw [dictKeys_cons, List.mem_cons]
      exact Or.inr h
    · rw [dictErase_cons, if_neg hk, dictKeys_cons, List.mem_cons] at h
      rw [dictKeys_cons, List.mem_cons]
      rcases h with h | h
      · exact Or.inl h
      · exact Or.inr (ih h)

theorem cacheInv_remove_spectrum (s s' : QtState) (name : String)
    (hInv : CacheInv s) (h : remove_spectrum s name = some s') :
    CacheInv s' := by
  unfold remove_spectrum at h
  cases hc : dictLookup s.spectrum_cache name with
  | none => rw [hc] at h; exact absurd h (by simp)
  | some pe =>
    obtain ⟨p, e⟩ := pe
    cases hp : dictLookup s.polygon_cache name with
    | none => rw [hc, hp] at h; exact absurd h (by simp)
    | some pv =>
      rw [hc, hp] at h
      injection h with h
      subst h
      constructor
      · show (↑(s.plotItems.erase p) : Multiset Nat) = _
        rw [← Multiset.coe_erase, hInv.1,
          map_multiset_dictErase s.spectrum_cache name (p, e) _ hc]
        exact Multiset.erase_cons_head _ _
      · intro k hk
        exact hInv.2 k (dictKeys_dictErase_subset _ _ _ hk)

theorem cacheInv_applyOp (s s' : QtState) (op : CacheOp)
    (hInv : CacheInv s) (h : applyOp s op = some s') : CacheInv s' := by
  cases op with
  | pixelPick =>
    injection h with h
    exact h ▸ cacheInv_add_spectrum s hInv
  | lassoPick =>
    injection h with h
    exact h ▸ cacheInv_add_group s hInv
  | deleteSpec n => exact cacheInv_remove_spectrum s s' n hInv h

theorem cacheInv_runOps (ops : List CacheOp) : ∀ s s' : QtState,
    CacheInv s → runOps s ops = some s' → CacheInv s' := by
  induction ops with
  | nil =>
    intro s s' hInv h
    injection h with h
    exact h ▸ hInv
  | cons op t ih =>
    intro s s' hInv h
    unfold runOps at h
    cases happ : applyOp s op with
    | none => rw [happ] at h; exact absurd h (by simp)
    | some s₁ =>
      rw [happ] at h
      exact ih s₁ s' (cacheInv_applyOp s s₁ op hInv happ) h

theorem mem_dictKeys_of_lookup {V : Type} (l : List (String × V))
    (k : String) (v : V) (h : dictLookup l k = some v) : k ∈ dictKeys l := by
  induction l with
  | nil => simp [dictLookup] at h
  | cons hd t ih =>
    obtain ⟨k₀, v₀⟩ := hd
    by_cases hk : k₀ = k
    · rw [dictKeys_cons, List.mem_cons]
      exact Or.inl hk.symm
    · rw [dictLookup_cons, if_neg hk] at h
      rw [dictKeys_cons, List.mem_cons]
      exact Or.inr (ih h)

/-! ### The matplotlib spectral canvas (`SpectralCanvas`)

`spectral_display_canvas.py` keeps a `SpectralState` with a single counter
`nspectra` and a `spectral_catalog` list; catalog entries are modelled by
their display name and the id of their `Line2D` artist. -/

structure CanvasState where
  /-- `SpectralState.nspectra`. -/
  nspectra : Nat
  /-- `SpectralState.spectral_catalog`, as (name, `Line2D` id) pairs. -/
  spectral_catalog : List (String × Nat)
  /-- `Line2D` artists currently on `spec_axis`. -/
  axisLines : List Nat
  /-- Allocator for artist ids. -/
  nextId : Nat
  deriving Repr, DecidableEq

/-- `SpectralCanvas.add_spectrum`: plots a line, appends a
`PlottedSingleSpectrum` named `f"SPECTRUM_{nspectra+1:02d}"` to the catalog
and increments `nspectra`. -/
def canvas_add_spectrum (s : CanvasState) : CanvasState :=
  { nspectra := s.nspectra + 1
    spectral_catalog :=
      s.spectral_catalog ++ [(autoName (s.nspectra + 1), s.nextId)]
    axisLines := s.axisLines ++ [s.nextId]
    nextId := s.nextId + 1 }

/-- `SpectralCanvas.clear_spectra`: removes every catalogued artist from the
axis, replaces the state by a fresh `SpectralState()` (so `nspectra = 0` and
the catalog is empty) and plots an invisible null line for the legend. -/
def canvas_clear_spectra (s : CanvasState) : CanvasState :=
  let lines := s.spectral_catalog.foldl (fun ls en => ls.erase en.2) s.axisLines
  { nspectra := 0
    spectral_catalog := []
    axisLines := lines ++ [s.nextId]
    nextId := s.nextId + 1 }

/-! ### Claims C1, C2, C3 -/

/-- C1: renaming a cached spectrum to the name of another existing entry
does not fail with a `DuplicateNameError` and does not leave both entries
unchanged: on a cache holding `SPECTRUM_01` and `SPECTRUM_02`, renaming
`SPECTRUM_01` to `SPECTRUM_02` succeeds and silently overwrites the
`SPECTRUM_02` entry, leaving a single entry that holds the renamed
spectrum's artifacts. -/
theorem rename_collision_not_rejected :
    update_cache (add_spectrum (add_spectrum initState)) 0 1
        "SPECTRUM_01" "SPECTRUM_02" =
      some { count := 2, nextId := 4, plotItems := [0, 2], errItems := [],
             viewItems := [],
             spectrum_cache := [("SPECTRUM_02", (0, 1))],
             polygon_cache := [("SPECTRUM_02", none)] } ∧
    (add_spectrum (add_spectrum initState)).spectrum_cache =
      [("SPECTRUM_01", (0, 1)), ("SPECTRUM_02", (2, 3))] := by
  constructor
  · decide
  · decide

/-- C1 (amended): `update_cache` performs no duplicate check: renaming an
entry to an already-present different name succeeds, removes the old key
and overwrites the existing entry under the new name (the cache shrinks by
one entry and the new name maps to the renamed spectrum's artifacts);
renaming an entry to its own name succeeds and leaves the cache mapping
unchanged. -/
theorem rename_overwrites_duplicate_and_self_rename_noop
    (s : QtState) (p e : Nat) (pv : Option Nat) (old new : String)
    (hc : dictLookup s.spectrum_cache old = some (p, e))
    (hp : dictLookup s.polygon_cache old = some pv) :
    (new ∈ dictKeys s.spectrum_cache → new ≠ old →
      ∃ s', update_cache s p e old new = some s' ∧
        s'.spectrum_cache.length + 1 = s.spectrum_cache.length ∧
        dictLookup s'.spectrum_cache new = some (p, e)) ∧
    (∃ s₀, update_cache s p e old old = some s₀ ∧
      ∀ k, dictLookup s₀.spectrum_cache k = dictLookup s.spectrum_cache k) := by
  constructor
  · intro hmem hne
    refine ⟨_, by rw [update_cache, hc, hp], ?_, ?_⟩
    · show (dictInsert (dictErase s.spectrum_cache old) new (p, e)).length + 1
        = s.spectrum_cache.length
      rw [length_dictInsert_of_mem _ _ _
        (mem_dictKeys_dictErase_of_ne _ _ _ hne hmem)]
      exact length_dictErase_of_mem _ _ (mem_dictKeys_of_lookup _ _ _ hc)
    · exact dictLookup_dictInsert_self _ _ _
  · refine ⟨_, by rw [update_cache, hc, hp], ?_⟩
    intro k
    by_cases hk : k = old
    · subst hk
      show dictLookup (dictInsert (dictErase s.spectrum_cache k) k (p, e)) k
        = dictLookup s.spectrum_cache k
      rw [dictLookup_dictInsert_self, hc]
    · show dictLookup (dictInsert (dictErase s.spectrum_cache old) old (p, e)) k
        = dictLookup s.spectrum_cache k
      rw [dictLookup_dictInsert_of_ne _ _ _ _ hk,
        dictLookup_dictErase_of_ne _ _ _ hk]

/-- C1 witness: on the concrete two-entry cache, the amended theorem applies
with `old = SPECTRUM_01`, `new = SPECTRUM_02`. -/
theorem rename_overwrites_duplicate_witness :
    ∃ s', update_cache (add_spectrum (add_spectrum initState)) 0 1
        "SPECTRUM_01" "SPECTRUM_02" = some s' ∧
      s'.spectrum_cache.length + 1 =
        (add_spectrum (add_spectrum initState)).spectrum_cache.length ∧
      dictLookup s'.spectrum_cache "SPECTRUM_02" = some (0, 1) :=
  (rename_overwrites_duplicate_and_self_rename_noop
    (add_spectrum (add_spectrum initState)) 0 1 none
    "SPECTRUM_01" "SPECTRUM_02" (by decide) (by decide)).1
    (by decide) (by decide)

/-- C2: the artifact/cache-entry equality does not survive `empty_cache`:
after one add followed by a clear, no plot line is live but the cache still
holds one entry. -/
theorem clear_breaks_artifact_cache_equality :
    (empty_cache (add_spectrum initState)).plotItems.length ≠
      (empty_cache (add_spectrum initState)).spectrum_cache.length := by
  decide

/-- C2 (amended): for every sequence of add (pixel pick or lasso) and
remove operations starting from the initial window state, the number of
live plot-line artifacts on the spectral canvas equals the number of
spectrum-cache entries — indeed the live line ids are exactly the cached
line ids as a multiset.  (`empty_cache` and renaming onto an existing name
break this equality.) -/
theorem artifact_count_matches_cache_entries
    (ops : List CacheOp) (s : QtState) (h : runOps initState ops = some s) :
    s.plotItems.length = s.spectrum_cache.length ∧
    (↑s.plotItems : Multiset Nat) =
      ↑(s.spectrum_cache.map (fun en => en.2.1)) := by
  have hInv := cacheInv_runOps ops initState s cacheInv_initState h
  refine ⟨?_, hInv.1⟩
  have hcard := congrArg Multiset.card hInv.1
  simpa using hcard

/-- C2 witness: a concrete add/add/remove run keeps the equality. -/
theorem artifact_count_matches_cache_entries_witness :
    runOps initState
        [CacheOp.pixelPick, CacheOp.lassoPick,
          CacheOp.deleteSpec "SPECTRUM_01"] =
      some { count := 2, nextId := 5, plotItems := [2], errItems := [3],
             viewItems := [4],
             spectrum_cache := [("SPECTRUM_02", (2, 3))],
             polygon_cache := [("SPECTRUM_02", some 4)] } ∧
    ({ count := 2, nextId := 5, plotItems := [2], errItems := [3],
       viewItems := [4],
       spectrum_cache := [("SPECTRUM_02", (2, 3))],
       polygon_cache := [("SPECTRUM_02", some 4)] } : QtState).plotItems.length
      = ({ count := 2, nextId := 5, plotItems := [2], errItems := [3],
           viewItems := [4],
           spectrum_cache := [("SPECTRUM_02", (2, 3))],
           polygon_cache := [("SPECTRUM_02", some 4)] } : QtState).spectrum_cache.length :=
  ⟨by decide, (artifact_count_matches_cache_entries
    [CacheOp.pixelPick, CacheOp.lassoPick, CacheOp.deleteSpec "SPECTRUM_01"]
    _ (by decide)).1⟩

/-- C3: `clear` behaviour. In the matplotlib canvas, `clear_spectra` does
remove all catalog entries, reset the (single) auto-name counter and make
the next add use `SPECTRUM_01`.  But in the Qt window, `empty_cache` on a
cache holding one spectrum resets `_count` to 0 and removes the artifacts
while leaving the `spectrum_cache` entry in place, so the claim's "removes
all entries" fails there: the next add is again assigned `SPECTRUM_01` and
silently overwrites the stale entry, leaking its artifact. -/
theorem clear_resets_counter_but_qt_keeps_entries :
    (∀ s : CanvasState,
      (canvas_clear_spectra s).spectral_catalog = [] ∧
      (canvas_clear_spectra s).nspectra = 0 ∧
      (canvas_add_spectrum (canvas_clear_spectra s)).spectral_catalog.map
        Prod.fst = ["SPECTRUM_01"]) ∧
    (empty_cache (add_spectrum initState)).count = 0 ∧
    (empty_cache (add_spectrum initState)).spectrum_cache =
      (add_spectrum initState).spectrum_cache ∧
    (empty_cache (add_spectrum initState)).spectrum_cache.length = 1 ∧
    (empty_cache (add_spectrum initState)).plotItems = [] ∧
    (add_spectrum (empty_cache (add_spectrum initState))).spectrum_cache.length
      = 1 ∧
    (add_spectrum (empty_cache (add_spectrum initState))).plotItems.length
      = 1 := by
  refine ⟨?_, by decide, by decide, by decide, by decide, by decide, by decide⟩
  intro s
  refine ⟨rfl, rfl, ?_⟩
  show ([] ++ [(autoName 1, (canvas_clear_spectra s).nextId)]).map Prod.fst
    = ["SPECTRUM_01"]
  rw [List.nil_append, List.map_cons]
  rw [show autoName 1 = "SPECTRUM_01" from by decide]
  rfl

/-! ### `square_image` (`utils.py`)

A 2-D image of shape `(H, W)` is a total function `Nat → Nat → ℚ` read at
indices below the dims; the padded result uses `Option ℚ` with `none` for
the `np.nan` fill.  `np.argmax` / `np.argmin` over the shape tuple return
the first extremal axis; `np.concat` requires all non-concatenation
dimensions to match and otherwise raises (modelled as `none`). -/

structure SquareOffset where
  x_offset : ℤ
  y_offset : ℤ
  deriving Repr, DecidableEq

/-- `square_image(img, rgb=False)`: builds a `(dimLong, p)` block of NaN
padding (`p = (long - short) // 2`) and concatenates
`[padding, img, padding]` along the short axis.  Returns `none` when
`np.concat` would raise a shape mismatch. -/
def square_image (H W : Nat) (img : Nat → Nat → ℚ) :
    Option (SquareOffset × ((Nat × Nat) × (Nat → Nat → Option ℚ))) :=
  let longAxis : Nat := if W > H then 1 else 0
  let shortAxis : Nat := if H > W then 1 else 0
  let dimLong := if longAxis = 0 then H else W
  let dimShort := if shortAxis = 0 then H else W
  let p := (dimLong - dimShort) / 2
  let offset : SquareOffset :=
    if longAxis < shortAxis then ⟨-(p : ℤ), 0⟩ else ⟨0, -(p : ℤ)⟩
  if shortAxis = 0 then
    if p = W then
      some (offset, ((dimLong + H + dimLong, W), fun i j =>
        if i < dimLong then none
        else if i < dimLong + H then some (img (i - dimLong) j)
        else none))
    else none
  else
    if dimLong = H then
      some (offset, ((H, p + W + p), fun i j =>
        if j < p then none
        else if j < p + W then some (img i (j - p))
        else none))
    else none

/-- Case characterization of `square_image`: taller-than-wide inputs give a
column-padded image with offset `(-(H-W)//2, 0)`; the degenerate empty
square succeeds trivially; every other shape makes `np.concat` raise. -/
theorem square_image_eq (H W : Nat) (img : Nat → Nat → ℚ) :
    square_image H W img =
      if H > W then
        some (⟨-(((H - W) / 2 : Nat) : ℤ), 0⟩,
          ((H, (H - W) / 2 + W + (H - W) / 2),
            fun i j => if j < (H - W) / 2 then none
              else if j < (H - W) / 2 + W then some (img i (j - (H - W) / 2))
              else none))
      else if H = 0 ∧ W = 0 then
        some (⟨0, 0⟩, ((0, 0), fun _ _ => none))
      else none := by
  rcases Nat.lt_trichotomy W H with hlt | heq | hgt
  · rw [if_pos hlt]
    unfold square_image
    have h1 : ¬ W > H := by omega
    simp only [if_neg h1, if_pos hlt]
    norm_num
  · subst heq
    rw [if_neg (by omega)]
    unfold square_image
    have h1 : ¬ W > W := by omega
    simp only [if_neg h1]
    norm_num
    by_cases h0 : W = 0
    · subst h0
      norm_num
    · rw [if_neg (fun he => h0 he.symm), if_neg h0]
  · rw [if_neg (by omega)]
    rw [if_neg (by omega : ¬ (H = 0 ∧ W = 0))]
    unfold square_image
    have h2 : ¬ H > W := by omega
    simp only [if_pos hgt, if_neg h2]
    norm_num
    omega

/-! ### Pixel picking (`image_display_widget.py`, `spectrum_picker_classes.py`) -/

/-- Python `int()` on a float: truncation toward zero. -/
def truncQ (q : ℚ) : ℤ := if 0 ≤ q then ⌊q⌋ else ⌈q⌉

/-- Python `round()` on a float: round half to even. -/
def pyRound (q : ℚ) : ℤ :=
  let f := ⌊q⌋
  let r := q - f
  if r < 1 / 2 then f
  else if 1 / 2 < r then f + 1
  else if 2 ∣ f then f else f + 1

/-- `ImagePickerWidget.pixel_select` on an image of shape `(h, w)` at data
position `(xf, yf)`: truncates both coordinates with `int()`, rejects when
`y < 0 or y > img.shape[0]` or `x < 0 or x > img.shape[1]` (upper bounds
checked with `>`, not `>=`), otherwise emits `pixel_picked(y, x)`. -/
def pixel_select (h w : Nat) (xf yf : ℚ) : Option (ℤ × ℤ) :=
  let x := truncQ xf
  let y := truncQ yf
  if y < 0 ∨ y > (h : ℤ) then none
  else if x < 0 ∨ x > (w : ℤ) then none
  else some (y, x)

/-- `ImageDisplay.on_button_press` pick branch: `x = int(round(event.xdata))`,
`y = int(round(event.ydata))`, then `specdisplay.plot(x, y)` with no bounds
check at all. -/
def on_button_press_pick (xd yd : ℚ) : ℤ × ℤ := (pyRound xd, pyRound yd)

/-! ### Claims C8, C9, C4 -/

/-- C8: `square_image` does not succeed for every rectangular array.  For a
wider-than-tall input (here 2×3) the padding block has shape
`(dimLong, p) = (3, 0)` and `np.concat(..., axis=0)` raises a shape
mismatch, modelled as `none`.  For taller-than-wide inputs the function
does succeed, and cropping the padded image back by the returned offset
(`x_offset = -p`) reconstructs the original exactly, the NaN fill never
overlapping original data. -/
theorem square_image_raises_on_wide_input :
    (∀ img : Nat → Nat → ℚ, square_image 2 3 img = none) ∧
    (∀ (H W : Nat) (img : Nat → Nat → ℚ), W < H →
      ∃ data : Nat → Nat → Option ℚ,
        square_image H W img =
          some (⟨-(((H - W) / 2 : Nat) : ℤ), 0⟩,
            ((H, (H - W) / 2 + W + (H - W) / 2), data)) ∧
        (∀ i, ∀ j < W, data i (j + (H - W) / 2) = some (img i j)) ∧
        (∀ i j, data i j = none ↔ (j < (H - W) / 2 ∨ (H - W) / 2 + W ≤ j))) := by
  constructor
  · intro img
    rfl
  · intro H W img hWH
    have h2 : H > W := hWH
    refine ⟨fun i j => if j < (H - W) / 2 then none
      else if j < (H - W) / 2 + W then some (img i (j - (H - W) / 2))
      else none, ?_, ?_, ?_⟩
    · rw [square_image_eq, if_pos h2]
    · intro i j hj
      have hp : ¬ (j + (H - W) / 2 < (H - W) / 2) := by omega
      have hq : j + (H - W) / 2 < (H - W) / 2 + W := by omega
      simp only [if_neg hp, if_pos hq, Nat.add_sub_cancel]
    · intro i j
      by_cases hp : j < (H - W) / 2
      · simp only [if_pos hp]
        exact iff_of_true trivial (Or.inl hp)
      · by_cases hq : j < (H - W) / 2 + W
        · simp only [if_neg hp, if_pos hq]
          refine iff_of_false (by simp) (by omega)
        · simp only [if_neg hp, if_neg hq]
          exact iff_of_true trivial (Or.inr (by omega))

/-- C8 witness: the round-trip branch applied to the concrete 3×1 image
`img i j = 10 i + j`. -/
theorem square_image_roundtrip_witness :
    ∃ data : Nat → Nat → Option ℚ,
      square_image 3 1 (fun i j => (10 * i + j : ℚ)) =
        some (⟨-(((3 - 1) / 2 : Nat) : ℤ), 0⟩,
          ((3, (3 - 1) / 2 + 1 + (3 - 1) / 2), data)) ∧
      (∀ i, ∀ j < 1, data i (j + (3 - 1) / 2) =
        some ((fun i j => (10 * i + j : ℚ)) i j)) ∧
      (∀ i j, data i j = none ↔ (j < (3 - 1) / 2 ∨ (3 - 1) / 2 + 1 ≤ j)) :=
  square_image_raises_on_wide_input.2 3 1
    (fun i j => (10 * i + j : ℚ)) (by decide)

/-- C9: the returned `SquareOffset` does not always have exactly one
non-zero component: on a 3×2 image the padding length is
`(3 - 2) // 2 = 0` and the offset is `(0, 0)` — both components zero. -/
theorem square_offset_both_zero :
    (square_image 3 2 (fun _ _ => (0 : ℚ))).map Prod.fst =
      some { x_offset := 0, y_offset := 0 } := by
  rfl

/-- C9 (amended): whenever `square_image` succeeds, the `y_offset`
component is zero and `x_offset = -((H - W) // 2)`, which is non-zero
exactly when `H ≥ W + 2`; for a square input of positive size the function
raises instead of returning an offset. -/
theorem square_offset_at_most_one_nonzero
    (H W : Nat) (img : Nat → Nat → ℚ)
    (off : SquareOffset) (dims : Nat × Nat) (data : Nat → Nat → Option ℚ)
    (h : square_image H W img = some (off, (dims, data))) :
    off.y_offset = 0 ∧ off.x_offset = -(((H - W) / 2 : Nat) : ℤ) ∧
    (off.x_offset ≠ 0 ↔ W + 2 ≤ H) := by
  rw [square_image_eq] at h
  by_cases h2 : H > W
  · rw [if_pos h2] at h
    simp only [Option.some.injEq, Prod.mk.injEq] at h
    obtain ⟨rfl, -⟩ := h
    refine ⟨rfl, rfl, ?_⟩
    constructor
    · intro hne
      by_contra hcon
      apply hne
      have hz : (H - W) / 2 = 0 := by omega
      show -(((H - W) / 2 : Nat) : ℤ) = 0
      rw [hz]
      rfl
    · intro hge hcon
      have hcon' : -(((H - W) / 2 : Nat) : ℤ) = 0 := hcon
      have hz : 1 ≤ (H - W) / 2 := by omega
      omega
  · rw [if_neg h2] at h
    by_cases h0 : H = 0 ∧ W = 0
    · rw [if_pos h0] at h
      obtain ⟨hH, hW⟩ := h0
      subst hH
      subst hW
      simp only [Option.some.injEq, Prod.mk.injEq] at h
      obtain ⟨rfl, -⟩ := h
      refine ⟨rfl, by simp, by simp⟩
    · rw [if_neg h0] at h
      exact absurd h (by simp)

/-- C9 amended witness: the amended theorem applied to a 4×1 image, where
the offset is `(-1, 0)`. -/
theorem square_offset_at_most_one_nonzero_witness :
    ((⟨-1, 0⟩ : SquareOffset).y_offset = 0 ∧
      (⟨-1, 0⟩ : SquareOffset).x_offset = -(((4 - 1) / 2 : Nat) : ℤ) ∧
      ((⟨-1, 0⟩ : SquareOffset).x_offset ≠ 0 ↔ 1 + 2 ≤ 4)) :=
  square_offset_at_most_one_nonzero 4 1 (fun _ _ => (0 : ℚ)) ⟨-1, 0⟩ (4, 3)
    (fun i j => if j < 1 then none
      else if j < 2 then some ((fun _ _ => (0 : ℚ)) i (j - 1)) else none)
    (by rfl)

/-- C4: a pointer pick at exactly `y = height` is not rejected:
`pixel_select` on a 4×4 image at data coordinates `(x, y) = (2, 4)` accepts
and emits `(y, x) = (4, 2)` (the guard uses `>`, not `>=`), contradicting
the claimed no-op for coordinates outside `[0,height)×[0,width)`. -/
theorem pick_at_height_not_rejected :
    pixel_select 4 4 2 4 = some (4, 2) := by
  have ht : truncQ 4 = 4 := by
    unfold truncQ
    rw [if_pos (by norm_num)]
    norm_num
  have ht2 : truncQ 2 = 2 := by
    unfold truncQ
    rw [if_pos (by norm_num)]
    norm_num
  unfold pixel_select
  rw [ht, ht2]
  norm_num

/-- C4 (amended): `pixel_select` truncates the floating data coordinates
toward zero (it does not round), accepts exactly the truncated coordinates
with `0 ≤ y ≤ height` and `0 ≤ x ≤ width` (upper bounds inclusive), and
emits `(y, x)`; the matplotlib controller's `on_button_press` instead
rounds to nearest (ties to even) and performs no bounds check at all —
truncation and rounding genuinely differ, e.g. at `0.7`. -/
theorem pixel_select_truncates_with_closed_upper_bounds :
    (∀ (h w : Nat) (xf yf : ℚ) (pt : ℤ × ℤ),
      pixel_select h w xf yf = some pt →
      pt = (truncQ yf, truncQ xf) ∧
        0 ≤ pt.1 ∧ pt.1 ≤ (h : ℤ) ∧ 0 ≤ pt.2 ∧ pt.2 ≤ (w : ℤ)) ∧
    (∀ (h w : Nat) (xf yf : ℚ),
      0 ≤ truncQ yf → truncQ yf ≤ (h : ℤ) →
      0 ≤ truncQ xf → truncQ xf ≤ (w : ℤ) →
      pixel_select h w xf yf = some (truncQ yf, truncQ xf)) ∧
    (∀ xd yd : ℚ, on_button_press_pick xd yd = (pyRound xd, pyRound yd)) ∧
    truncQ (7 / 10) = 0 ∧ pyRound (7 / 10) = 1 := by
  have hfl : ⌊(7 / 10 : ℚ)⌋ = 0 := by
    rw [Int.floor_eq_zero_iff]
    constructor <;> norm_num
  refine ⟨?_, ?_, fun _ _ => rfl, ?_, ?_⟩
  · intro h w xf yf pt hpt
    unfold pixel_select at hpt
    by_cases hy : truncQ yf < 0 ∨ truncQ yf > (h : ℤ)
    · rw [if_pos hy] at hpt
      exact absurd hpt (by simp)
    · by_cases hx : truncQ xf < 0 ∨ truncQ xf > (w : ℤ)
      · rw [if_neg hy, if_pos hx] at hpt
        exact absurd hpt (by simp)
      · rw [if_neg hy, if_neg hx] at hpt
        injection hpt with hpt
        push_neg at hy hx
        subst hpt
        exact ⟨rfl, by omega, by omega, by omega, by omega⟩
  · intro h w xf yf h₁ h₂ h₃ h₄
    unfold pixel_select
    rw [if_neg (by omega), if_neg (by omega)]
  · unfold truncQ
    rw [if_pos (by norm_num)]
    exact hfl
  · unfold pyRound
    rw [hfl]
    norm_num

/-- C4 amended witness: an in-bounds pick at `(x, y) = (1.0, 2.0)` on a
4×4 image is accepted at the truncated pixel `(2, 1)`. -/
theorem pixel_select_accepts_in_bounds_witness :
    pixel_select 4 4 1 2 = some (truncQ 2, truncQ 1) :=
  pixel_select_truncates_with_closed_upper_bounds.2.1 4 4 1 2
    (by simp [truncQ]) (by simp [truncQ]) (by simp [truncQ])
    (by simp [truncQ])

/-! ### Area-spectrum statistics

`SpectralCanvas.add_lasso` collects `all_spectra = [c.pull_data(cube) for c
in c_list]` and computes `np.mean(all_spectra, axis=0)` and
`np.std(all_spectra, axis=0, ddof=1)`; the entry stores `len(c_list)` as
`total`.  Coordinates are `(x, y)` pairs and `pull_data` reads
`cube[y, x, :]`. -/

/-- `PixelCoordinate.pull_data`: `cube[self.y, self.x, :]` at band `b`. -/
def pull_data (cube : ℤ → ℤ → Nat → ℚ) (c : ℤ × ℤ) (b : Nat) : ℚ :=
  cube c.2 c.1 b

/-- `np.mean(all_spectra, axis=0)` at band `b`. -/
def mean_spec (cube : ℤ → ℤ → Nat → ℚ) (cs : List (ℤ × ℤ)) (b : Nat) : ℚ :=
  (cs.map (fun c => pull_data cube c b)).sum / (cs.length : ℚ)

/-- The square of `np.std(all_spectra, axis=0, ddof=1)` at band `b`:
`sum((x - mean)^2) / (n - 1)` (Bessel's correction). -/
def std_sq_spec (cube : ℤ → ℤ → Nat → ℚ) (cs : List (ℤ × ℤ)) (b : Nat) : ℚ :=
  (cs.map (fun c => (pull_data cube c b - mean_spec cube cs b) ^ 2)).sum /
    ((cs.length : ℚ) - 1)

/-- The concrete scenario cube: `cube[0,0,:] = [2,4]`, `cube[0,1,:] = [4,8]`. -/
def cubeC5 : ℤ → ℤ → Nat → ℚ := fun y x b =>
  if y = 0 ∧ x = 0 then (if b = 0 then 2 else 4)
  else if y = 0 ∧ x = 1 then (if b = 0 then 4 else 8)
  else 0

/-- The lasso pixel set `{(0,0), (1,0)}` in `(x, y)` order. -/
def coordsC5 : List (ℤ × ℤ) := [(0, 0), (1, 0)]

theorem sum_map_const_q {α : Type} (cs : List α) (c : ℚ) :
    (cs.map (fun _ => c)).sum = (cs.length : ℚ) * c := by
  induction cs with
  | nil => simp
  | cons hd t ih =>
    simp only [List.map_cons, List.sum_cons, ih, List.length_cons]
    push_cast
    ring

/-- C5: the area-spectrum computation on the lasso pixels (0,0) and (1,0)
over the scenario cube returns mean `[3, 6]`, sample standard deviation
`[√2, 2√2]` (squared: `[2, 8]`, divisor `n - 1`), and `n = 2`
(`np.std(..., ddof=1)` is the square root of `std_sq_spec`); and in
general, whenever at least two selected pixels all hold the same spectrum
`v`, the mean equals `v` and the error array is identically zero. -/
theorem area_spectrum_statistics :
    (mean_spec cubeC5 coordsC5 0 = 3 ∧ mean_spec cubeC5 coordsC5 1 = 6 ∧
      coordsC5.length = 2 ∧
      std_sq_spec cubeC5 coordsC5 0 = 2 ∧ std_sq_spec cubeC5 coordsC5 1 = 8 ∧
      Real.sqrt ((std_sq_spec cubeC5 coordsC5 0 : ℚ) : ℝ) = Real.sqrt 2 ∧
      Real.sqrt ((std_sq_spec cubeC5 coordsC5 1 : ℚ) : ℝ) = 2 * Real.sqrt 2) ∧
    (∀ (cube : ℤ → ℤ → Nat → ℚ) (v : Nat → ℚ) (cs : List (ℤ × ℤ)),
      2 ≤ cs.length → (∀ c ∈ cs, ∀ b, pull_data cube c b = v b) →
      ∀ b, mean_spec cube cs b = v b ∧ std_sq_spec cube cs b = 0 ∧
        Real.sqrt ((std_sq_spec cube cs b : ℚ) : ℝ) = 0) := by
  have h000 : pull_data cubeC5 (0, 0) 0 = 2 := by norm_num [pull_data, cubeC5]
  have h001 : pull_data cubeC5 (0, 0) 1 = 4 := by norm_num [pull_data, cubeC5]
  have h100 : pull_data cubeC5 (1, 0) 0 = 4 := by norm_num [pull_data, cubeC5]
  have h101 : pull_data cubeC5 (1, 0) 1 = 8 := by norm_num [pull_data, cubeC5]
  have hm0 : mean_spec cubeC5 coordsC5 0 = 3 := by
    rw [mean_spec]
    rw [show coordsC5.map (fun c => pull_data cubeC5 c 0) =
      [pull_data cubeC5 (0, 0) 0, pull_data cubeC5 (1, 0) 0] from rfl]
    rw [h000, h100]
    norm_num [coordsC5]
  have hm1 : mean_spec cubeC5 coordsC5 1 = 6 := by
    rw [mean_spec]
    rw [show coordsC5.map (fun c => pull_data cubeC5 c 1) =
      [pull_data cubeC5 (0, 0) 1, pull_data cubeC5 (1, 0) 1] from rfl]
    rw [h001, h101]
    norm_num [coordsC5]
  have hs0 : std_sq_spec cubeC5 coordsC5 0 = 2 := by
    rw [std_sq_spec]
    rw [show coordsC5.map
      (fun c => (pull_data cubeC5 c 0 - mean_spec cubeC5 coordsC5 0) ^ 2) =
      [(pull_data cubeC5 (0, 0) 0 - mean_spec cubeC5 coordsC5 0) ^ 2,
        (pull_data cubeC5 (1, 0) 0 - mean_spec cubeC5 coordsC5 0) ^ 2]
      from rfl]
    rw [h000, h100, hm0]
    norm_num [coordsC5]
  have hs1 : std_sq_spec cubeC5 coordsC5 1 = 8 := by
    rw [std_sq_spec]
    rw [show coordsC5.map
      (fun c => (pull_data cubeC5 c 1 - mean_spec cubeC5 coordsC5 1) ^ 2) =
      [(pull_data cubeC5 (0, 0) 1 - mean_spec cubeC5 coordsC5 1) ^ 2,
        (pull_data cubeC5 (1, 0) 1 - mean_spec cubeC5 coordsC5 1) ^ 2]
      from rfl]
    rw [h001, h101, hm1]
    norm_num [coordsC5]
  constructor
  · refine ⟨hm0, hm1, rfl, hs0, hs1, ?_, ?_⟩
    · rw [hs0]
      norm_num
    · rw [hs1]
      rw [show (((8 : ℚ) : ℝ)) = 4 * 2 by norm_num]
      rw [Real.sqrt_mul (by norm_num) 2]
      rw [show (4 : ℝ) = 2 ^ 2 by norm_num, Real.sqrt_sq (by norm_num)]
  · intro cube v cs h2 hall b
    have hn : (cs.length : ℚ) ≠ 0 := Nat.cast_ne_zero.mpr (by omega)
    have hmap : cs.map (fun c => pull_data cube c b) =
        cs.map (fun _ => v b) :=
      List.map_congr_left (fun c hc => hall c hc b)
    have hmean : mean_spec cube cs b = v b := by
      rw [mean_spec, hmap, sum_map_const_q, mul_div_cancel_left₀ _ hn]
    refine ⟨hmean, ?_, ?_⟩
    · have hmap2 : cs.map
          (fun c => (pull_data cube c b - mean_spec cube cs b) ^ 2) =
          cs.map (fun _ => 0) := by
        refine List.map_congr_left (fun c hc => ?_)
        rw [hall c hc b, hmean, sub_self]
        ring
      rw [std_sq_spec, hmap2, sum_map_const_q, mul_zero, zero_div]
    · have hz : std_sq_spec cube cs b = 0 := by
        have hmap2 : cs.map
            (fun c => (pull_data cube c b - mean_spec cube cs b) ^ 2) =
            cs.map (fun _ => 0) := by
          refine List.map_congr_left (fun c hc => ?_)
          rw [hall c hc b, hmean, sub_self]
          ring
        rw [std_sq_spec, hmap2, sum_map_const_q, mul_zero, zero_div]
      rw [hz]
      norm_num

/-- C5 witness: five constant spectra on a constant cube give mean 5 and
zero error. -/
theorem area_spectrum_statistics_witness :
    mean_spec (fun _ _ _ => 5) [(0, 0), (1, 1)] 0 = 5 ∧
    std_sq_spec (fun _ _ _ => 5) [(0, 0), (1, 1)] 0 = 0 ∧
    Real.sqrt ((std_sq_spec (fun _ _ _ => 5) [(0, 0), (1, 1)] 0 : ℚ) : ℝ)
      = 0 :=
  area_spectrum_statistics.2 (fun _ _ _ => 5) (fun _ => 5) [(0, 0), (1, 1)]
    (by decide) (fun c _ b => rfl) 0

/-! ### The band compositor (`ThreeBandRGB`, `rgb_image.py`)

Fields mirror the dataclass: `_ridx/_gidx/_bidx`, the six `_rlow`…`_bhigh`
bounds, `_norms` (each `mcolors.Normalize(low, high, clip=True)` is
determined by its `(low, high)` pair) and the four-slot `_cache`.  A slice
is a total function `Nat → Nat → ℚ` over a cube of spatial shape
`(H, W)`. -/

structure ThreeBandRGB where
  data_cube : Nat → Nat → Nat → ℚ
  H : Nat
  W : Nat
  ridx : Nat
  gidx : Nat
  bidx : Nat
  rlow : ℚ
  rhigh : ℚ
  glow : ℚ
  ghigh : ℚ
  blow : ℚ
  bhigh : ℚ
  normR : ℚ × ℚ
  normG : ℚ × ℚ
  normB : ℚ × ℚ
  cacheR : Option (Nat → Nat → ℚ)
  cacheG : Option (Nat → Nat → ℚ)
  cacheB : Option (Nat → Nat → ℚ)
  cacheRGB : Option (Nat → Nat → Fin 3 → ℚ)

/-- `data_cube[:, :, b]`. -/
def slice (cube : Nat → Nat → Nat → ℚ) (b : Nat) : Nat → Nat → ℚ :=
  fun i j => cube i j b

/-- `extrema(data_cube[..., b])` over the `H × W` slice (row-major
enumeration; all values are finite in this model). -/
def extremaSlice (cube : Nat → Nat → Nat → ℚ) (H W b : Nat) : ℚ × ℚ :=
  let vs := (List.range (H * W)).map (fun k => cube (k / W) (k % W) b)
  (vs.foldl min (vs.headD 0), vs.foldl max (vs.headD 0))

/-- `ThreeBandRGB.__post_init__`: bounds and norms from the per-band
extrema, all caches empty. -/
def mkThreeBandRGB (cube : Nat → Nat → Nat → ℚ) (H W r g b : Nat) :
    ThreeBandRGB :=
  let re := extremaSlice cube H W r
  let ge := extremaSlice cube H W g
  let bve := extremaSlice cube H W b
  { data_cube := cube, H := H, W := W, ridx := r, gidx := g, bidx := b
    rlow := re.1, rhigh := re.2, glow := ge.1, ghigh := ge.2
    blow := bve.1, bhigh := bve.2
    normR := re, normG := ge, normB := bve
    cacheR := none, cacheG := none, cacheB := none, cacheRGB := none }

/-- `glow` setter: stores the value and runs
`_update_norm("g", _glow, _ghigh)` (rebuild the norm, clear the `g` and
`rgb` cache slots).  No validation of any kind is performed. -/
def set_glow (s : ThreeBandRGB) (v : ℚ) : ThreeBandRGB :=
  { s with
    glow := v, normG := (v, s.ghigh), cacheG := none, cacheRGB := none }

/-- `ghigh` setter. -/
def set_ghigh (s : ThreeBandRGB) (v : ℚ) : ThreeBandRGB :=
  { s with
    ghigh := v, normG := (s.glow, v), cacheG := none, cacheRGB := none }

/-- `blow` setter (stores into `_blow`; note the getter reads `_glow`). -/
def set_blow (s : ThreeBandRGB) (v : ℚ) : ThreeBandRGB :=
  { s with
    blow := v, normB := (v, s.bhigh), cacheB := none, cacheRGB := none }

/-- `bhigh` setter. -/
def set_bhigh (s : ThreeBandRGB) (v : ℚ) : ThreeBandRGB :=
  { s with
    bhigh := v, normB := (s.blow, v), cacheB := none, cacheRGB := none }

/-- `blow` getter as written in the source: `return self._glow`. -/
def blow_get (s : ThreeBandRGB) : ℚ := s.glow

/-- `bhigh` getter as written in the source: `return self._ghigh`. -/
def bhigh_get (s : ThreeBandRGB) : ℚ := s.ghigh

/-- `gidx` setter: `_update_band("g", idx)` recomputes the green extrema,
stores them into `_glow`/`_ghigh`, rebuilds the green norm and clears the
`g` and `rgb` cache slots (the `r` and `b` slots are untouched). -/
def set_gidx (s : ThreeBandRGB) (v : Nat) : ThreeBandRGB :=
  let e := extremaSlice s.data_cube s.H s.W v
  { s with
    gidx := v, glow := e.1, ghigh := e.2, normG := e,
    cacheG := none, cacheRGB := none }

/-- `ridx` setter (`_update_band("r", idx)`). -/
def set_ridx (s : ThreeBandRGB) (v : Nat) : ThreeBandRGB :=
  let e := extremaSlice s.data_cube s.H s.W v
  { s with
    ridx := v, rlow := e.1, rhigh := e.2, normR := e,
    cacheR := none, cacheRGB := none }

/-- `bidx` setter (`_update_band("b", idx)`, which routes through the
`blow`/`bhigh` property setters). -/
def set_bidx (s : ThreeBandRGB) (v : Nat) : ThreeBandRGB :=
  let e := extremaSlice s.data_cube s.H s.W v
  { s with
    bidx := v, blow := e.1, bhigh := e.2, normB := e,
    cacheB := none, cacheRGB := none }

/-- The value returned by the `red` property: the cached slice if present,
else `data_cube[:, :, ridx]`. -/
def red_value (s : ThreeBandRGB) : Nat → Nat → ℚ :=
  match s.cacheR with
  | some v => v
  | none => slice s.data_cube s.ridx

def green_value (s : ThreeBandRGB) : Nat → Nat → ℚ :=
  match s.cacheG with
  | some v => v
  | none => slice s.data_cube s.gidx

def blue_value (s : ThreeBandRGB) : Nat → Nat → ℚ :=
  match s.cacheB with
  | some v => v
  | none => slice s.data_cube s.bidx

/-- `mcolors.Normalize(low, high, clip=True)` applied to a value:
`clip((x - low) / (high - low), 0, 1)`. -/
def norm_apply (nm : ℚ × ℚ) (x : ℚ) : ℚ :=
  max 0 (min 1 ((x - nm.1) / (nm.2 - nm.1)))

/-- The composite recomputed from the current slices and norms (what
`scaled_rgb` builds on a cache miss, with plane 0/1/2 = r/g/b). -/
def slices_rgb (s : ThreeBandRGB) : Nat → Nat → Fin 3 → ℚ :=
  fun i j c =>
    if c = 0 then norm_apply s.normR (slice s.data_cube s.ridx i j)
    else if c = 1 then norm_apply s.normG (slice s.data_cube s.gidx i j)
    else norm_apply s.normB (slice s.data_cube s.bidx i j)

/-- The value returned by the `scaled_rgb` property: the cached composite
if present, else the stack of the clip-normalized channel values. -/
def scaled_rgb_value (s : ThreeBandRGB) : Nat → Nat → Fin 3 → ℚ :=
  match s.cacheRGB with
  | some v => v
  | none => fun i j c =>
      if c = 0 then norm_apply s.normR (red_value s i j)
      else if c = 1 then norm_apply s.normG (green_value s i j)
      else norm_apply s.normB (blue_value s i j)

/-- Cache coherence: every filled cache slot holds what a recomputation
would produce.  Every state reachable through the class's own methods is
coherent. -/
def Coherent (s : ThreeBandRGB) : Prop :=
  (s.cacheR = none ∨ s.cacheR = some (slice s.data_cube s.ridx)) ∧
  (s.cacheG = none ∨ s.cacheG = some (slice s.data_cube s.gidx)) ∧
  (s.cacheB = none ∨ s.cacheB = some (slice s.data_cube s.bidx)) ∧
  (s.cacheRGB = none ∨ s.cacheRGB = some (slices_rgb s))

theorem scaled_rgb_value_coherent (s : ThreeBandRGB) (h : Coherent s) :
    scaled_rgb_value s = slices_rgb s := by
  obtain ⟨hr, hg, hb, hrgb⟩ := h
  rcases hrgb with hrgb | hrgb
  · unfold scaled_rgb_value
    rw [hrgb]
    funext i j c
    rcases hr with hr | hr <;> rcases hg with hg | hg <;>
      rcases hb with hb | hb <;>
      simp only [slices_rgb, red_value, green_value, blue_value, hr, hg, hb]
  · unfold scaled_rgb_value
    rw [hrgb]

/-! ### Claims C6, C7, C10 -/

/-- C6: setting an inverted pair of contrast bounds is not rejected: on a
1×1×2 cube with green extrema `(4, 4)`, assigning `glow = 9` (so
`low ≥ high`) succeeds, stores 9 and does not retain the previous value
4. -/
theorem inverted_bounds_not_rejected :
    (set_glow (mkThreeBandRGB
        (fun _ _ b => if b = 0 then (1 : ℚ) else 4) 1 1 0 1 1) 9).glow = 9 ∧
    (mkThreeBandRGB
        (fun _ _ b => if b = 0 then (1 : ℚ) else 4) 1 1 0 1 1).glow = 4 ∧
    (mkThreeBandRGB
        (fun _ _ b => if b = 0 then (1 : ℚ) else 4) 1 1 0 1 1).ghigh = 4 := by
  refine ⟨rfl, ?_, ?_⟩ <;> decide

/-- C6 (amended): the bound setters perform no validation: for every state
and every new value — in particular an inverted one with
`ghigh ≤ v` — `glow = v` stores the value, rebuilds the green norm from the
new (inverted) pair and invalidates the green and combined caches, leaving
every other channel untouched; no `InvalidRangeError` exists. -/
theorem bounds_setter_accepts_inverted_pair
    (s : ThreeBandRGB) (v : ℚ) (_hinv : s.ghigh ≤ v) :
    (set_glow s v).glow = v ∧ (set_glow s v).ghigh = s.ghigh ∧
    (set_glow s v).normG = (v, s.ghigh) ∧
    (set_glow s v).cacheG = none ∧ (set_glow s v).cacheRGB = none ∧
    (set_glow s v).cacheR = s.cacheR ∧ (set_glow s v).cacheB = s.cacheB ∧
    (set_glow s v).normR = s.normR ∧ (set_glow s v).normB = s.normB ∧
    (set_glow s v).rlow = s.rlow ∧ (set_glow s v).blow = s.blow :=
  ⟨rfl, rfl, rfl, rfl, rfl, rfl, rfl, rfl, rfl, rfl, rfl⟩

/-- C6 witness: the inverted assignment `glow = 9` against `ghigh = 4` on
the concrete 1×1×2 cube. -/
theorem bounds_setter_accepts_inverted_pair_witness :
    (set_glow (mkThreeBandRGB
        (fun _ _ b => if b = 0 then (1 : ℚ) else 4) 1 1 0 1 1) 9).glow = 9 ∧
    (set_glow (mkThreeBandRGB
        (fun _ _ b => if b = 0 then (1 : ℚ) else 4) 1 1 0 1 1) 9).ghigh =
      (mkThreeBandRGB
        (fun _ _ b => if b = 0 then (1 : ℚ) else 4) 1 1 0 1 1).ghigh :=
  ⟨(bounds_setter_accepts_inverted_pair _ 9 (by decide)).1,
    (bounds_setter_accepts_inverted_pair _ 9 (by decide)).2.1⟩

/-- C7: changing the green band index on a coherent compositor leaves the
red and blue slice caches byte-identical, invalidates exactly the green
slice cache and the combined RGB cache, and changes `scaled_rgb` only in
the green plane: the red (0) and blue (2) planes of the output are
unchanged at every pixel. -/
theorem gidx_change_touches_only_green
    (s : ThreeBandRGB) (v : Nat) (h : Coherent s) :
    (set_gidx s v).cacheR = s.cacheR ∧ (set_gidx s v).cacheB = s.cacheB ∧
    (set_gidx s v).cacheG = none ∧ (set_gidx s v).cacheRGB = none ∧
    (∀ i j, scaled_rgb_value (set_gidx s v) i j 0 =
      scaled_rgb_value s i j 0) ∧
    (∀ i j, scaled_rgb_value (set_gidx s v) i j 2 =
      scaled_rgb_value s i j 2) := by
  have h' : Coherent (set_gidx s v) := by
    refine ⟨?_, Or.inl rfl, ?_, Or.inl rfl⟩
    · exact h.1
    · exact h.2.2.1
  rw [show (set_gidx s v).cacheR = s.cacheR from rfl,
    show (set_gidx s v).cacheB = s.cacheB from rfl]
  refine ⟨rfl, rfl, rfl, rfl, ?_, ?_⟩ <;> intro i j <;>
    rw [scaled_rgb_value_coherent _ h', scaled_rgb_value_coherent _ h] <;>
    rfl

/-- C7 witness: a freshly constructed compositor over a 1×1×3 cube is
coherent, and switching its green band from 1 to 2 keeps the red and blue
planes. -/
theorem gidx_change_touches_only_green_witness :
    (set_gidx (mkThreeBandRGB
        (fun _ _ b => if b = 0 then (1 : ℚ) else if b = 1 then 2 else 3)
        1 1 0 1 2) 2).cacheR =
      (mkThreeBandRGB
        (fun _ _ b => if b = 0 then (1 : ℚ) else if b = 1 then 2 else 3)
        1 1 0 1 2).cacheR ∧
    (∀ i j, scaled_rgb_value (set_gidx (mkThreeBandRGB
        (fun _ _ b => if b = 0 then (1 : ℚ) else if b = 1 then 2 else 3)
        1 1 0 1 2) 2) i j 0 =
      scaled_rgb_value (mkThreeBandRGB
        (fun _ _ b => if b = 0 then (1 : ℚ) else if b = 1 then 2 else 3)
        1 1 0 1 2) i j 0) :=
  ⟨(gidx_change_touches_only_green _ 2
      ⟨Or.inl rfl, Or.inl rfl, Or.inl rfl, Or.inl rfl⟩).1,
    (gidx_change_touches_only_green _ 2
      ⟨Or.inl rfl, Or.inl rfl, Or.inl rfl, Or.inl rfl⟩).2.2.2.2.1⟩

/-- C10: the `blow` and `bhigh` getters return the green channel's stored
bounds, not the blue channel's: on a 1×1×3 cube with green bounds `(2, 2)`
and blue bounds `(3, 3)`, `blow` reads 2 while `_blow` is 3; and after
assigning `blow = 7` (stored into `_blow`), reading `blow` still returns
2. -/
theorem blow_getter_returns_green_bounds :
    blow_get (mkThreeBandRGB
      (fun _ _ b => if b = 0 then (1 : ℚ) else if b = 1 then 2 else 3)
      1 1 0 1 2) = 2 ∧
    (mkThreeBandRGB
      (fun _ _ b => if b = 0 then (1 : ℚ) else if b = 1 then 2 else 3)
      1 1 0 1 2).blow = 3 ∧
    bhigh_get (mkThreeBandRGB
      (fun _ _ b => if b = 0 then (1 : ℚ) else if b = 1 then 2 else 3)
      1 1 0 1 2) = 2 ∧
    (mkThreeBandRGB
      (fun _ _ b => if b = 0 then (1 : ℚ) else if b = 1 then 2 else 3)
      1 1 0 1 2).bhigh = 3 ∧
    (set_blow (mkThreeBandRGB
      (fun _ _ b => if b = 0 then (1 : ℚ) else if b = 1 then 2 else 3)
      1 1 0 1 2) 7).blow = 7 ∧
    blow_get (set_blow (mkThreeBandRGB
      (fun _ _ b => if b = 0 then (1 : ℚ) else if b = 1 then 2 else 3)
      1 1 0 1 2) 7) = 2 := by
  refine ⟨?_, ?_, ?_, ?_, ?_, ?_⟩ <;> decide

end SpecView
